import Mathlib

/-!
Verification of the OceanMusicGen lyric-to-melody pipeline.

Shallow embedding of `scripts/enhanced_music_generator.py` (primary variant:
`EnhancedMelodyGenerator`, `EnhancedVocalGenerator`) and of the relevant parts
of `scripts/lyrics_to_melody.py` (`LyricsToMelodyGenerator.analyze_syllables`,
which carries the fixed stress-pattern override table).

Modelling conventions:
* Python floats are modelled as `ℚ` (all arithmetic used by the claims is
  exact: `+ - * /` and comparisons).
* Python `int(x)` (truncation toward zero) is `pyInt`.
* Python `//` and `%` (floor division / nonnegative remainder, divisor 12 > 0)
  are Lean's `Int` `/` and `%` (Euclidean division, identical for a positive
  divisor).
* `np.random` draws are threaded explicitly: an integer stream `rng : ℕ → ℤ`
  consumed at increasing indices (one draw for the root note, then one per
  syllable), and a rational stream `nrng : ℕ → ℚ` for the per-sample pitch
  jitter.  `np.random.choice(cands)` is modelled by `choiceFrom cands r`.
* The float expression `440 * 2 ** ((pitch - 69) / 12)` is irrational, so the
  pitch-to-frequency map is threaded as an explicit parameter
  `freq : ℤ → ℚ`; no claim depends on its values.
* Python code that raises on some input (`min([])`, division by
  `len(phonemes) == 0`) is modelled with `Option`, `none` meaning the
  exception path.
-/

/-- Python `int(x)`: truncation toward zero of a rational. -/
def pyInt (q : ℚ) : ℤ := Int.tdiv q.num q.den

/-- Source `np.random.choice(cands)` given one raw draw `r` from the stream:
a deterministic selection of an element of `cands`. -/
def choiceFrom (cands : List ℤ) (r : ℤ) : ℤ := cands.getD (r.toNat % cands.length) 0

/-- Python `str.lower()` (over the ASCII range exercised by the tables). -/
def pyLower (s : String) : String := String.mk (s.data.map Char.toLower)

/-- Maximal runs of characters satisfying `p`; separators are dropped and no
empty chunks are produced (the shape of Python `str.split()` and of
`re.findall` over a character class). -/
def runsAux (p : Char → Bool) : List Char → List Char → List (List Char)
  | [], acc => if acc.isEmpty then [] else [acc.reverse]
  | c :: cs, acc =>
    if p c then runsAux p cs (c :: acc)
    else if acc.isEmpty then runsAux p cs []
    else acc.reverse :: runsAux p cs []

/-- Python `str.split()` with no argument: runs of non-whitespace. -/
def pyWords (s : String) : List String :=
  (runsAux (fun c => !c.isWhitespace) s.data []).map String.mk

/-- Python's `\w` word character (over the ASCII range exercised here). -/
def isWordChar (c : Char) : Bool := c.isAlphanum || c = '_'

/-- Python `re.findall(r'\b\w+\b', text)`: maximal runs of word characters. -/
def wordRuns (s : String) : List String :=
  (runsAux isWordChar s.data []).map String.mk

/-- Split on a single separator character, keeping empty chunks
(Python `str.split(sep)`). -/
def splitOnCharAux (sep : Char) : List Char → List Char → List (List Char)
  | [], acc => [acc.reverse]
  | c :: cs, acc =>
    if c = sep then acc.reverse :: splitOnCharAux sep cs []
    else splitOnCharAux sep cs (c :: acc)

/-- Python `s.split(sep)` for a one-character separator. -/
def splitOnChar (sep : Char) (s : String) : List String :=
  (splitOnCharAux sep s.data []).map String.mk

/-- Python `str.strip()` on a character list. -/
def stripChars (l : List Char) : List Char :=
  ((l.dropWhile Char.isWhitespace).reverse.dropWhile Char.isWhitespace).reverse

/-- Python `str.strip()`. -/
def pyStrip (s : String) : String := String.mk (stripChars s.data)

/-- Vowel characters used by the syllable heuristic (`'aeiou'`). -/
def vowels : List Char := ['a', 'e', 'i', 'o', 'u']

/-- Source `len([c for c in word if c.lower() in 'aeiou'])`
(also `len(re.findall(r'[aeiouAEIOU]', word))` in the second variant). -/
def vowelCount (w : String) : ℕ :=
  (w.data.filter (fun c => c.toLower ∈ vowels)).length

/-- Source `self.emotion_weights`: the fixed sentiment table (identical in both
source files). -/
def emotionWeights : List (String × ℚ) := [
  ("love", 9/10), ("joy", 8/10), ("happy", 7/10), ("beautiful", 6/10),
  ("amazing", 7/10), ("wonderful", 8/10), ("perfect", 6/10), ("dream", 5/10),
  ("sunshine", 7/10), ("freedom", 6/10), ("hope", 5/10), ("smile", 6/10),
  ("sad", -(7/10)), ("pain", -(8/10)), ("hurt", -(6/10)), ("broken", -(7/10)),
  ("lonely", -(6/10)), ("dark", -(5/10)), ("tears", -(6/10)), ("goodbye", -(5/10)),
  ("lost", -(6/10)), ("empty", -(7/10)), ("cold", -(4/10)), ("fear", -(6/10)),
  ("time", 0), ("day", 1/10), ("night", -(2/10)), ("way", 0),
  ("life", 2/10), ("world", 1/10), ("heart", 3/10), ("soul", 2/10)]

/-- Source `self.emotion_weights.get(word, 0.0)`. -/
def lookupWeight (w : String) : ℚ := (emotionWeights.lookup w).getD 0

/-- Source `self.scales`: named pitch-class sets (identical in both source files). -/
def scalesTable : List (String × List ℤ) := [
  ("major", [0, 2, 4, 5, 7, 9, 11]),
  ("minor", [0, 2, 3, 5, 7, 8, 10]),
  ("dorian", [0, 2, 3, 5, 7, 9, 10]),
  ("mixolydian", [0, 2, 4, 5, 7, 9, 10]),
  ("pentatonic_major", [0, 2, 4, 7, 9]),
  ("pentatonic_minor", [0, 3, 5, 7, 10]),
  ("blues", [0, 3, 5, 6, 7, 10])]

/-- Source `self.scales[scale_name]` (every name reaching it is a table key; the
`[]` default is proved unreachable). -/
def scaleLookup (name : String) : List ℤ := (scalesTable.lookup name).getD []

/-- Source `self.emotion_mappings`: mood → (scale, tempo_mod, energy). -/
def emotionMappings : List (String × String × ℚ × ℚ) := [
  ("happy", "major", 11/10, 8/10),
  ("sad", "minor", 9/10, 4/10),
  ("energetic", "mixolydian", 12/10, 9/10),
  ("calm", "pentatonic_major", 8/10, 3/10),
  ("mysterious", "dorian", 95/100, 5/10),
  ("uplifting", "major", 105/100, 7/10)]

/-- Source `self.stress_patterns` in `lyrics_to_melody.py`: fixed per-word stress
pattern overrides. -/
def stressPatterns : List (String × List Bool) := [
  ("beautiful", [true, false, false]),
  ("amazing", [false, true, false]),
  ("wonderful", [true, false, false]),
  ("together", [false, true, false]),
  ("forever", [false, true, false]),
  ("remember", [false, true, false]),
  ("believe", [false, true]),
  ("freedom", [true, false]),
  ("sunshine", [true, false])]

/-- Source `note_names` in `_midi_to_note_name`. -/
def noteNames : List String :=
  ["C", "C#", "D", "D#", "E", "F"] ++ ["F#", "G", "G#", "A", "A#", "B"]

/-- Source `_midi_to_note_name`: `octave = midi_note // 12 - 1`,
`note = note_names[midi_note % 12]`, rendered as `f"{note}{octave}"`. -/
def midiToNoteName (m : ℤ) : String :=
  let octave : ℤ := m / 12 - 1
  let note : String := noteNames.getD (m % 12).toNat ""
  note ++ toString octave

/-- Source `MelodyNote` dataclass. -/
structure MelodyNote where
  pitch : ℤ
  duration : ℚ
  velocity : ℤ
  syllable : String
  timestamp : ℚ
deriving DecidableEq, Inhabited

/-- Source `MelodyPhrase` dataclass. -/
structure MelodyPhrase where
  notes : List MelodyNote
  start_time : ℚ
  emotion_weight : ℚ
  lyric_line : String
deriving DecidableEq, Inhabited

/-- Source `AudioFeatures` dataclass. -/
structure AudioFeatures where
  tempo : ℤ
  key : String
  time_signature : String
  energy : ℚ
  valence : ℚ
  danceability : ℚ
  acousticness : ℚ
  instrumentalness : ℚ
deriving DecidableEq, Inhabited

/-- The `lyric_analysis` dictionary built by `_analyze_lyrics_structure`. -/
structure LyricAnalysis where
  lines : List String
  emotional_arc : List ℚ
  syllable_counts : List ℕ
  total_syllables : ℕ
deriving DecidableEq, Inhabited

/-- Source `GeneratedMelody` dataclass (the `structure` field holds the lyric
analysis dictionary). -/
structure GeneratedMelody where
  phrases : List MelodyPhrase
  audio_features : AudioFeatures
  structureInfo : LyricAnalysis
  total_duration : ℚ
  note_count : ℕ
deriving DecidableEq, Inhabited

/-- One entry of `_analyze_line_syllables` / `analyze_syllables`. -/
structure WordData where
  word : String
  syllable_count : ℕ
  stress_pattern : List Bool
  emotion_weight : ℚ
deriving DecidableEq, Inhabited

/-- The stress-pattern default rule shared by both variants:
1 syllable → stressed; 2 → trochaic; otherwise alternate starting stressed. -/
def defaultStress (sc : ℕ) : List Bool :=
  if sc = 1 then [true]
  else if sc = 2 then [true, false]
  else (List.range sc).map (fun i => i % 2 == 0)

/-- Source `_analyze_line_syllables` in `enhanced_music_generator.py` (no override
table in this variant). -/
def analyzeLineSyllables (line : String) : List WordData :=
  (pyWords (pyLower line)).map fun word =>
    { word := word
      syllable_count := max 1 (vowelCount word)
      stress_pattern := defaultStress (max 1 (vowelCount word))
      emotion_weight := lookupWeight word }

/-- Source `analyze_syllables` in `lyrics_to_melody.py`: words via `\b\w+\b`, stress
pattern first looked up in `stress_patterns`, default rule otherwise. -/
def analyzeSyllables (text : String) : List WordData :=
  (wordRuns (pyLower text)).map fun word =>
    { word := word
      syllable_count := max 1 (vowelCount word)
      stress_pattern :=
        match stressPatterns.lookup word with
        | some p => p
        | none => defaultStress (max 1 (vowelCount word))
      emotion_weight := lookupWeight word }

/-- Per-line emotion: `np.mean([emotion_weights.get(w, 0.0) for w in words])`.
Only invoked on non-blank lines, whose word list is non-empty. -/
def lineEmotion (line : String) : ℚ :=
  let ws := pyWords (pyLower line)
  (ws.map lookupWeight).sum / (ws.length : ℚ)

/-- Source `[line.strip() for line in lyrics.split('\n') if line.strip()]`. -/
def nonBlankLines (lyrics : String) : List String :=
  ((splitOnChar '\n' lyrics).map pyStrip).filter (fun l => l ≠ "")

/-- Per-line syllable total used by `_analyze_lyrics_structure`. -/
def lineSyllableCount (line : String) : ℕ :=
  ((pyWords (pyLower line)).map (fun w => max 1 (vowelCount w))).sum

/-- Source `_analyze_lyrics_structure`. -/
def analyzeLyricsStructure (lyrics : String) : LyricAnalysis :=
  let lines := nonBlankLines lyrics
  { lines := lines
    emotional_arc := lines.map lineEmotion
    syllable_counts := lines.map lineSyllableCount
    total_syllables := (lines.map lineSyllableCount).sum }

/-- Source `np.mean(emotional_arc) if emotional_arc else 0`. -/
def avgEmotion (arc : List ℚ) : ℚ :=
  if arc = [] then 0 else arc.sum / (arc.length : ℚ)

/-- Source `_determine_key_and_scale`: mood table first, else thresholds on the
average emotion; root drawn from an emotion-dependent candidate set with one
stream draw `r`. -/
def determineKeyAndScale (arc : List ℚ) (mood : String) (r : ℤ) : ℤ × String :=
  let avg := avgEmotion arc
  let scaleName :=
    match emotionMappings.lookup (pyLower mood) with
    | some mc => mc.1
    | none =>
      if avg > 3/10 then "major"
      else if avg < -(3/10) then "minor"
      else "dorian"
  let root :=
    if avg > 1/2 then choiceFrom [60, 62, 64, 67] r
    else if avg < -(1/2) then choiceFrom [57, 59, 61, 65] r
    else choiceFrom [60, 62, 65, 67] r
  (root, scaleName)

/-- Python `min(list)` as a left fold from the first element. -/
def pyMinList : ℤ → List ℤ → ℤ
  | a, [] => a
  | a, b :: l => pyMinList (min a b) l

/-- Source `distances = [abs(scale_degree - note) for note in scale_notes];
scale_notes[distances.index(min(distances))]`. -/
def nearestScaleDegree (scale : List ℤ) (deg : ℤ) : ℤ :=
  match scale with
  | [] => deg
  | a :: ss =>
    let ds := (a :: ss).map (fun m => |deg - m|)
    (a :: ss).getD (ds.indexOf (pyMinList (|deg - a|) (ss.map (fun m => |deg - m|)))) deg

/-- The scale-quantization step of `_generate_phrase_from_line` (lines
355-362) / `convert_lyrics_to_melody` (lines 179-186). -/
def quantizeStep (scale : List ℤ) (root cur : ℤ) : ℤ :=
  let deg := (cur - root) % 12
  let deg2 := if deg ∈ scale then deg else nearestScaleDegree scale deg
  root + deg2 + ((cur - root) / 12) * 12

/-- The inner syllable loop of `_generate_phrase_from_line`: one note per
stress-pattern position, threading the pitch cursor, the running time and the
random-stream index. -/
def genSyllables (rng : ℕ → ℤ) (root : ℤ) (scale : List ℤ) (tempo : ℤ)
    (word : String) (wEmotion lE : ℚ) (plen : ℕ) :
    List (ℕ × Bool) → ℤ → ℚ → ℕ → List MelodyNote × ℤ × ℚ × ℕ
  | [], pitch, t, ix => ([], pitch, t, ix)
  | (sylIdx, stressed) :: rest, pitch, t, ix =>
    let pitchChange : ℤ :=
      (if stressed then 2 + pyInt (wEmotion * 2) else -1 + pyInt wEmotion)
        + choiceFrom [-1, 0, 1] (rng ix)
    let cur : ℤ := pitch + pitchChange
    let finalPitch : ℤ := quantizeStep scale root cur
    let dur : ℚ := (if stressed then 3/4 + lE * (1/4) else 1/2) * (120 / (tempo : ℚ))
    let vel : ℤ := max 40 (min 127 ((if stressed then 90 else 70) + pyInt (|wEmotion| * 20)))
    let syl : String := if plen > 1 then word ++ "[" ++ toString sylIdx ++ "]" else word
    let note : MelodyNote :=
      { pitch := finalPitch, duration := dur, velocity := vel, syllable := syl, timestamp := t }
    let rest2 := genSyllables rng root scale tempo word wEmotion lE plen rest cur (t + dur) (ix + 1)
    (note :: rest2.1, rest2.2)

/-- The word loop of `_generate_phrase_from_line`. -/
def genWords (rng : ℕ → ℤ) (root : ℤ) (scale : List ℤ) (tempo : ℤ) (lE : ℚ) :
    List WordData → ℤ → ℚ → ℕ → List MelodyNote × ℤ × ℚ × ℕ
  | [], pitch, t, ix => ([], pitch, t, ix)
  | wd :: ws, pitch, t, ix =>
    let r1 := genSyllables rng root scale tempo wd.word wd.emotion_weight lE
      wd.stress_pattern.length wd.stress_pattern.enum pitch t ix
    let r2 := genWords rng root scale tempo lE ws r1.2.1 r1.2.2.1 r1.2.2.2
    (r1.1 ++ r2.1, r2.2)

/-- The line loop of `generate_melody_from_lyrics`: skip blank lines,
generate a phrase per line starting the pitch cursor an octave above the
root, and advance `current_time` by the sum of the phrase's note durations. -/
def genPhrases (rng : ℕ → ℤ) (root : ℤ) (scale : List ℤ) (tempo : ℤ) :
    List (String × ℚ) → ℚ → ℕ → List MelodyPhrase × ℚ × ℕ
  | [], t, ix => ([], t, ix)
  | (line, ew) :: rest, t, ix =>
    if pyStrip line = "" then genPhrases rng root scale tempo rest t ix
    else
      let r1 := genWords rng root scale tempo ew (analyzeLineSyllables line) (root + 12) t ix
      let phrase : MelodyPhrase :=
        { notes := r1.1, start_time := t, emotion_weight := ew, lyric_line := line }
      let r2 := genPhrases rng root scale tempo rest
        (t + (r1.1.map (fun n => n.duration)).sum) r1.2.2.2
      (phrase :: r2.1, r2.2)

/-- The melody-side state of `generate_melody_from_lyrics` before the
`GeneratedMelody` object is assembled. -/
structure MelodyParts where
  root : ℤ
  scaleName : String
  phrases : List MelodyPhrase
  totalDuration : ℚ
deriving DecidableEq, Inhabited

/-- Source `generate_melody_from_lyrics`, melody core: lyric analysis, key/scale
selection (consuming stream index 0), then the phrase loop (stream indices
1, 2, ...). -/
def melodyParts (rng : ℕ → ℤ) (lyrics mood : String) (tempo : ℤ) : MelodyParts :=
  let lines := nonBlankLines lyrics
  let arc := lines.map lineEmotion
  let rs := determineKeyAndScale arc mood (rng 0)
  let res := genPhrases rng rs.1 (scaleLookup rs.2) tempo (lines.zip arc) 0 1
  { root := rs.1, scaleName := rs.2, phrases := res.1, totalDuration := res.2.1 }

/-- The field-override targets of `_generate_audio_features`'s
`genre_adjustments` / `setattr` loop. -/
inductive FeatField
  | energy
  | valence
  | danceability
  | acousticness
  | instrumentalness
deriving DecidableEq

/-- Source `setattr(features, key, value)` for one adjustment entry. -/
def setFeat (f : AudioFeatures) : FeatField × ℚ → AudioFeatures
  | (FeatField.energy, v) => { f with energy := v }
  | (FeatField.valence, v) => { f with valence := v }
  | (FeatField.danceability, v) => { f with danceability := v }
  | (FeatField.acousticness, v) => { f with acousticness := v }
  | (FeatField.instrumentalness, v) => { f with instrumentalness := v }

/-- Source `genre_adjustments` in `_generate_audio_features` (entries in source
order). -/
def genreAdjustments : List (String × List (FeatField × ℚ)) := [
  ("pop", [(FeatField.danceability, 8/10), (FeatField.energy, 7/10), (FeatField.acousticness, 2/10)]),
  ("rock", [(FeatField.energy, 9/10), (FeatField.acousticness, 1/10), (FeatField.danceability, 6/10)]),
  ("electronic", [(FeatField.danceability, 9/10), (FeatField.energy, 8/10), (FeatField.acousticness, 5/100)]),
  ("folk", [(FeatField.acousticness, 8/10), (FeatField.energy, 4/10), (FeatField.danceability, 3/10)])]

/-- The fixed baseline `AudioFeatures(...)` constructed first in
`_generate_audio_features`. -/
def baselineFeatures (tempo : ℤ) (root : ℤ) : AudioFeatures :=
  { tempo := tempo
    key := midiToNoteName root
    time_signature := "4/4"
    energy := 7/10
    valence := 5/10
    danceability := 6/10
    acousticness := 3/10
    instrumentalness := 1/10 }

/-- The mood-adjustment pass of `_generate_audio_features`: replace energy
from the mood table and set a two-level valence. -/
def applyMood (mood : String) (f : AudioFeatures) : AudioFeatures :=
  match emotionMappings.lookup (pyLower mood) with
  | some mc =>
    { f with energy := mc.2.2, valence := if mc.2.2 > 6/10 then 8/10 else 3/10 }
  | none => f

/-- The genre-adjustment pass of `_generate_audio_features`: `setattr` each
entry of the genre's adjustment list in order. -/
def applyGenre (genre : String) (f : AudioFeatures) : AudioFeatures :=
  match genreAdjustments.lookup (pyLower genre) with
  | some adj => adj.foldl setFeat f
  | none => f

/-- Source `_generate_audio_features`. -/
def generateAudioFeatures (genre mood : String) (tempo : ℤ) (root : ℤ) : AudioFeatures :=
  applyGenre genre (applyMood mood (baselineFeatures tempo root))

/-- Source `generate_melody_from_lyrics`. -/
def generateMelodyFromLyrics (rng : ℕ → ℤ) (lyrics genre mood : String) (tempo : ℤ) :
    GeneratedMelody :=
  let mp := melodyParts rng lyrics mood tempo
  { phrases := mp.phrases
    audio_features := generateAudioFeatures genre mood tempo mp.root
    structureInfo := analyzeLyricsStructure lyrics
    total_duration := mp.totalDuration
    note_count := (mp.phrases.map (fun p => p.notes.length)).sum }

/-- Source `VocalSettings` dataclass. -/
structure VocalSettings where
  voice_type : String
  pitch_low : ℤ
  pitch_high : ℤ
  vibrato_intensity : ℚ
  breath_control : ℚ
  articulation_style : String
deriving DecidableEq, Inhabited

/-- The default `VocalSettings` built in `generate_vocals_with_melody` when
none are supplied. -/
def defaultVocalSettings : VocalSettings :=
  { voice_type := "male_lead", pitch_low := 60, pitch_high := 84
    vibrato_intensity := 3/10, breath_control := 7/10
    articulation_style := "clear_melodic" }

/-- One entry of the `phoneme_timing` list of dictionaries. -/
structure PhonemeEvent where
  phoneme : Char
  start_time : ℚ
  duration : ℚ
  pitch : ℤ
  velocity : ℤ
deriving DecidableEq, Inhabited

/-- Source `note.syllable.split('[')[0]`. -/
def stripIndexSuffix (s : String) : String := (splitOnChar '[' s).headD ""

/-- Source `phonemes = list(syllable.lower())`. -/
def phonemeChars (n : MelodyNote) : List Char :=
  (pyLower (stripIndexSuffix n.syllable)).data

/-- The inner loop of `_generate_phoneme_timing`: one event per phoneme,
advancing `current_time` by the per-phoneme duration. -/
def phonemeEventsAux (pd : ℚ) (pitch vel : ℤ) : List Char → ℚ → List PhonemeEvent
  | [], _ => []
  | c :: cs, t =>
    { phoneme := c, start_time := t, duration := pd, pitch := pitch, velocity := vel }
      :: phonemeEventsAux pd pitch vel cs (t + pd)

/-- The events `_generate_phoneme_timing` emits for one note (meaningful only
when the note has at least one phoneme character). -/
def notePhonemeEvents (n : MelodyNote) : List PhonemeEvent :=
  phonemeEventsAux (n.duration / ((phonemeChars n).length : ℚ)) n.pitch n.velocity
    (phonemeChars n) n.timestamp

/-- Source `_generate_phoneme_timing`: `none` models the `ZeroDivisionError` raised
by `note.duration / len(phonemes)` when some note's stripped syllable has no
characters. -/
def generatePhonemeTiming (m : GeneratedMelody) : Option (List PhonemeEvent) :=
  let ns := (m.phrases.map (fun p => p.notes)).flatten
  if ns.all (fun n => !(phonemeChars n).isEmpty)
  then some ((ns.map notePhonemeEvents).flatten)
  else none

/-- Source `num_points = max(1, int(note.duration * 10))`, shared by
`_extract_pitch_contour` and `_generate_dynamics`. -/
def numPointsOf (d : ℚ) : ℕ := (max 1 (pyInt (d * 10))).toNat

/-- Source `_extract_pitch_contour` inner loops: `num_points` samples per note, each
`freq(pitch) + jitter`, consuming one jitter draw per sample.  `freq` models
the float expression `440 * 2 ** ((note.pitch - 69) / 12)`. -/
def contourAux (freq : ℤ → ℚ) (nrng : ℕ → ℚ) : List MelodyNote → ℕ → List ℚ × ℕ
  | [], ix => ([], ix)
  | n :: ns, ix =>
    let np := numPointsOf n.duration
    let samples := (List.range np).map (fun i => freq n.pitch + nrng (ix + i))
    let rest := contourAux freq nrng ns (ix + np)
    (samples ++ rest.1, rest.2)

/-- Source `_extract_pitch_contour`. -/
def extractPitchContour (freq : ℤ → ℚ) (nrng : ℕ → ℚ) (m : GeneratedMelody) : List ℚ :=
  (contourAux freq nrng ((m.phrases.map (fun p => p.notes)).flatten) 0).1

/-- The attack-sustain-release envelope of `_generate_dynamics` at sample `i`
of `np` samples. -/
def envelopeAt (np : ℕ) (i : ℕ) : ℚ :=
  if (i : ℚ) < (np : ℚ) * (1/10) then (i : ℚ) / ((np : ℚ) * (1/10))
  else if (i : ℚ) > (np : ℚ) * (8/10) then ((np : ℚ) - (i : ℚ)) / ((np : ℚ) * (2/10))
  else 1

/-- The samples `_generate_dynamics` emits for one note. -/
def noteDynamics (n : MelodyNote) : List ℚ :=
  (List.range (numPointsOf n.duration)).map
    (fun i => ((n.velocity : ℚ) / 127) * envelopeAt (numPointsOf n.duration) i)

/-- Source `_generate_dynamics`. -/
def generateDynamics (m : GeneratedMelody) : List ℚ :=
  (((m.phrases.map (fun p => p.notes)).flatten).map noteDynamics).flatten

/-- Source `_generate_vocal_effects`. -/
def generateVocalEffects (vs : VocalSettings) : List (String × ℚ) := [
  ("reverb", 3/10), ("chorus", 2/10), ("vibrato_rate", 5),
  ("vibrato_depth", vs.vibrato_intensity),
  ("breath_noise", 1 - vs.breath_control),
  ("compression", 6/10), ("eq_low", 0), ("eq_mid", 1/10), ("eq_high", 2/10)]

/-- The `vocal_track` dictionary of `_synthesize_vocal_track` (the fields the
claims depend on). -/
structure VocalTrackMeta where
  sample_rate : ℕ
  duration : ℚ
  phoneme_count : ℕ
  pitch_range : ℚ × ℚ
  dynamic_range : ℚ × ℚ
  synthesis_method : String
  voice_model : String
deriving DecidableEq, Inhabited

/-- Source `_synthesize_vocal_track`: `none` models the `ValueError` raised by
`min(pitch_contour)` / `min(dynamics)` on an empty list. -/
def synthesizeVocalTrack (m : GeneratedMelody) (pt : List PhonemeEvent)
    (pc dyn : List ℚ) (vs : VocalSettings) (userVoiceSample : Bool) :
    Option VocalTrackMeta :=
  match pc.min?, pc.max?, dyn.min?, dyn.max? with
  | some a, some b, some c, some d =>
    some { sample_rate := 44100, duration := m.total_duration
           phoneme_count := pt.length, pitch_range := (a, b), dynamic_range := (c, d)
           synthesis_method := if userVoiceSample then "neural_vocoder" else "parametric"
           voice_model := vs.voice_type }
  | _, _, _, _ => none

/-- Source `GeneratedVocals` dataclass (the fields the claims depend on). -/
structure GeneratedVocals where
  vocal_track : VocalTrackMeta
  phoneme_timing : List PhonemeEvent
  pitch_contour : List ℚ
  dynamics : List ℚ
  vocal_effects : List (String × ℚ)
deriving DecidableEq, Inhabited

/-- Source `generate_vocals_with_melody`: default the voice settings, then derive
phoneme timing, pitch contour, dynamics, effects and the vocal track; `none`
models any exception raised along the way. -/
def generateVocalsWithMelody (freq : ℤ → ℚ) (nrng : ℕ → ℚ) (m : GeneratedMelody)
    (voiceSettings : Option VocalSettings) (userVoiceSample : Bool) :
    Option GeneratedVocals :=
  let vs := voiceSettings.getD defaultVocalSettings
  match generatePhonemeTiming m with
  | none => none
  | some pt =>
    let pc := extractPitchContour freq nrng m
    let dyn := generateDynamics m
    let fx := generateVocalEffects vs
    match synthesizeVocalTrack m pt pc dyn vs userVoiceSample with
    | none => none
    | some vt =>
      some { vocal_track := vt, phoneme_timing := pt, pitch_contour := pc
             dynamics := dyn, vocal_effects := fx }

/-- The well-formedness of a scale list that the quantization step relies
on: non-empty, all pitch classes in `[0, 12)`. -/
def goodScale (s : List ℤ) : Prop := s ≠ [] ∧ ∀ m ∈ s, 0 ≤ m ∧ m < 12

/-- Notes laid out head-to-tail from time `t`: each timestamp equals the
running time, which then advances by that note's own duration. -/
def timeAligned : ℚ → List MelodyNote → Prop
  | _, [] => True
  | t, n :: ns => n.timestamp = t ∧ timeAligned (t + n.duration) ns

/-- The shape of every note the syllable loop emits for one word: pitch
produced by the quantization step, velocity from the clamped stress/emotion
formula, duration from the stress/emotion/tempo formula. -/
def noteShape (scale : List ℤ) (root tempo : ℤ) (wE lE : ℚ) (n : MelodyNote) : Prop :=
  (∃ cur, n.pitch = quantizeStep scale root cur)
  ∧ ∃ b : Bool, n.velocity = max 40 (min 127 ((if b then 90 else 70) + pyInt (|wE| * 20)))
      ∧ n.duration = (if b then 3/4 + lE * (1/4) else 1/2) * (120 / (tempo : ℚ))

/-- The shape of every note the word loop of a line emits: as `noteShape`,
with the word-level emotion weight coming from one of the line's analyzed
words. -/
def wordNoteShape (scale : List ℤ) (root tempo : ℤ) (lE : ℚ) (wds : List WordData)
    (n : MelodyNote) : Prop :=
  (∃ cur, n.pitch = quantizeStep scale root cur)
  ∧ ∃ wd ∈ wds, ∃ b : Bool,
      n.velocity = max 40 (min 127 ((if b then 90 else 70) + pyInt (|wd.emotion_weight| * 20)))
      ∧ n.duration = (if b then 3/4 + lE * (1/4) else 1/2) * (120 / (tempo : ℚ))

/-- The time span a phrase contributes: the sum of its note durations. -/
def phraseDurSum (p : MelodyPhrase) : ℚ := (p.notes.map (fun n => n.duration)).sum

/-- Phoneme events laid out head-to-tail from time `t`. -/
def phTimeAligned : ℚ → List PhonemeEvent → Prop
  | _, [] => True
  | t, e :: es => e.start_time = t ∧ phTimeAligned (t + e.duration) es

/-- A concrete note with syllable "la", used by the C2 witness. -/
def laNote : MelodyNote :=
  { pitch := 72, duration := 3/4, velocity := 90, syllable := "la", timestamp := 0 }

/-! ### List and string helper lemmas -/

theorem headD_mem {α : Type _} (l : List α) (d : α) (h : l ≠ []) : l.headD d ∈ l := by
  cases l with
  | nil => exact absurd rfl h
  | cons a t => exact List.mem_cons_self a t

theorem dropWhile_head_spec (p : Char → Bool) (l : List Char) :
    l.dropWhile p = [] ∨ ∃ c cs, l.dropWhile p = c :: cs ∧ p c = false := by
  induction l with
  | nil => left; rfl
  | cons c cs ih =>
    by_cases h : p c
    · simpa [List.dropWhile_cons, h] using ih
    · right
      exact ⟨c, cs, by simp [List.dropWhile_cons, h], by simpa using h⟩

theorem mem_dropWhile_of_not (p : Char → Bool) (c : Char) (hc : p c = false) (l : List Char)
    (h : c ∈ l) : c ∈ l.dropWhile p := by
  induction l with
  | nil => exact absurd h (List.not_mem_nil c)
  | cons a t ih =>
    by_cases ha : p a
    · rcases List.mem_cons.1 h with h1 | h2
      · subst h1; rw [ha] at hc; exact absurd hc (by simp)
      · simpa [List.dropWhile_cons, ha] using ih h2
    · simpa [List.dropWhile_cons, ha] using h

theorem stripChars_ne_of_mem (l : List Char) (c : Char) (hc : c ∈ l)
    (hw : c.isWhitespace = false) : stripChars l ≠ [] := by
  have h1 : c ∈ l.dropWhile Char.isWhitespace := mem_dropWhile_of_not _ c hw l hc
  have h2 : c ∈ (l.dropWhile Char.isWhitespace).reverse := List.mem_reverse.2 h1
  have h3 : c ∈ (l.dropWhile Char.isWhitespace).reverse.dropWhile Char.isWhitespace :=
    mem_dropWhile_of_not _ c hw _ h2
  intro he
  unfold stripChars at he
  rw [List.reverse_eq_nil_iff] at he
  rw [he] at h3
  exact absurd h3 (List.not_mem_nil c)

theorem exists_nonws_of_stripChars_ne (l : List Char) (h : stripChars l ≠ []) :
    ∃ c ∈ stripChars l, c.isWhitespace = false := by
  unfold stripChars at *
  rcases dropWhile_head_spec Char.isWhitespace (l.dropWhile Char.isWhitespace).reverse with h1 | h1
  · rw [h1] at h; exact absurd rfl h
  · obtain ⟨c, cs, heq, hws⟩ := h1
    refine ⟨c, ?_, hws⟩
    rw [heq]
    exact List.mem_reverse.2 (List.mem_cons_self c cs)

theorem mk_ne_empty_iff (l : List Char) : String.mk l ≠ "" ↔ l ≠ [] := by
  constructor
  · intro h hl
    exact h (by rw [hl])
  · intro h he
    exact h (congrArg String.data he)

theorem pyStrip_of_pyStrip_ne (s : String) (h : pyStrip s ≠ "") : pyStrip (pyStrip s) ≠ "" := by
  have h1 : stripChars s.data ≠ [] := (mk_ne_empty_iff _).1 h
  obtain ⟨c, hc, hw⟩ := exists_nonws_of_stripChars_ne s.data h1
  have h2 : stripChars (stripChars s.data) ≠ [] := stripChars_ne_of_mem _ c hc hw
  exact (mk_ne_empty_iff _).2 h2

/-! ### Minimum, index and nearest-scale-degree lemmas -/

theorem pyMinList_le_head (l : List ℤ) : ∀ a : ℤ, pyMinList a l ≤ a := by
  induction l with
  | nil => intro a; exact le_refl a
  | cons b t ih => intro a; exact le_trans (ih (min a b)) (min_le_left a b)

theorem pyMinList_le_mem (l : List ℤ) : ∀ a x, x ∈ l → pyMinList a l ≤ x := by
  induction l with
  | nil => intro a x hx; exact absurd hx (List.not_mem_nil x)
  | cons b t ih =>
    intro a x hx
    rcases List.mem_cons.1 hx with h | h
    · subst h; exact le_trans (pyMinList_le_head t (min a x)) (min_le_right a x)
    · exact ih (min a b) x h

theorem pyMinList_mem (l : List ℤ) : ∀ a, pyMinList a l = a ∨ pyMinList a l ∈ l := by
  induction l with
  | nil => intro a; left; rfl
  | cons b t ih =>
    intro a
    rcases ih (min a b) with h | h
    · rcases min_choice a b with h2 | h2
      · left; rw [show pyMinList a (b :: t) = pyMinList (min a b) t from rfl, h, h2]
      · right
        rw [show pyMinList a (b :: t) = pyMinList (min a b) t from rfl, h, h2]
        exact List.mem_cons_self b t
    · right
      exact List.mem_cons_of_mem b h

theorem getElem_lt_indexOf_ne (l : List ℤ) (a : ℤ) :
    ∀ j, ∀ hj : j < l.length, j < l.indexOf a → l.get ⟨j, hj⟩ ≠ a := by
  induction l with
  | nil => intro j hj; simp at hj
  | cons b t ih =>
    intro j hj hlt
    by_cases hb : b = a
    · subst hb
      rw [List.indexOf_cons_self] at hlt
      exact absurd hlt (Nat.not_lt_zero j)
    · cases j with
      | zero => simpa using hb
      | succ k =>
        rw [List.indexOf_cons_ne _ (by simpa using hb)] at hlt
        exact ih k (by simpa using hj) (by omega)

theorem getD_lt_indexOf_ne (l : List ℤ) (a : ℤ) :
    ∀ j, j < l.length → j < l.indexOf a → l.getD j 0 ≠ a := by
  induction l with
  | nil => intro j hj; simp at hj
  | cons b t ih =>
    intro j hj hlt
    by_cases hb : b = a
    · subst hb
      rw [List.indexOf_cons_self] at hlt
      exact absurd hlt (Nat.not_lt_zero j)
    · cases j with
      | zero => simpa [List.getD] using hb
      | succ k =>
        rw [List.indexOf_cons_ne _ (by simpa using hb)] at hlt
        simpa [List.getD] using ih k (by simpa using hj) (by omega)

theorem nearestScaleDegree_spec (deg a : ℤ) (ss : List ℤ) :
    ∃ i, i < (a :: ss).length
      ∧ nearestScaleDegree (a :: ss) deg = (a :: ss).getD i 0
      ∧ (∀ m ∈ a :: ss, |deg - (a :: ss).getD i 0| ≤ |deg - m|)
      ∧ ∀ j, j < i → |deg - (a :: ss).getD i 0| < |deg - (a :: ss).getD j 0| := by
  have hin : pyMinList (|deg - a|) (ss.map (fun m => |deg - m|))
      ∈ (a :: ss).map (fun m => |deg - m|) := by
    rcases pyMinList_mem (ss.map (fun m => |deg - m|)) (|deg - a|) with h | h
    · rw [show ((a :: ss).map (fun m => |deg - m|))
          = |deg - a| :: ss.map (fun m => |deg - m|) from rfl, h]
      exact List.mem_cons_self _ _
    · exact List.mem_cons_of_mem _ h
  have hmin : ∀ x ∈ (a :: ss).map (fun m => |deg - m|),
      pyMinList (|deg - a|) (ss.map (fun m => |deg - m|)) ≤ x := by
    intro x hx
    rcases List.mem_cons.1 hx with h | h
    · rw [h]; exact pyMinList_le_head _ _
    · exact pyMinList_le_mem _ _ _ h
  have hidx : ((a :: ss).map (fun m => |deg - m|)).indexOf
      (pyMinList (|deg - a|) (ss.map (fun m => |deg - m|)))
      < ((a :: ss).map (fun m => |deg - m|)).length := List.indexOf_lt_length.2 hin
  have hlen : ((a :: ss).map (fun m => |deg - m|)).length = (a :: ss).length :=
    List.length_map _ _
  have hgm : ∀ j, j < (a :: ss).length →
      ((a :: ss).map (fun m => |deg - m|)).getD j 0 = |deg - (a :: ss).getD j 0| := by
    intro j hj
    rw [List.getD_eq_getElem _ _ (by omega), List.getD_eq_getElem _ _ hj]
    exact List.getElem_map _
  have hget : ((a :: ss).map (fun m => |deg - m|)).getD
      (((a :: ss).map (fun m => |deg - m|)).indexOf
        (pyMinList (|deg - a|) (ss.map (fun m => |deg - m|)))) 0
      = pyMinList (|deg - a|) (ss.map (fun m => |deg - m|)) := by
    rw [List.getD_eq_getElem _ _ hidx]
    exact List.indexOf_get hidx
  refine ⟨((a :: ss).map (fun m => |deg - m|)).indexOf
    (pyMinList (|deg - a|) (ss.map (fun m => |deg - m|))), by omega, ?_, ?_, ?_⟩
  · show (a :: ss).getD _ deg = _
    rw [List.getD_eq_getElem _ deg (by omega)]
    exact (List.getD_eq_getElem _ 0 (by omega)).symm
  · intro m hm
    have h1 : |deg - m| ∈ (a :: ss).map (fun m => |deg - m|) :=
      List.mem_map_of_mem (fun m => |deg - m|) hm
    have h2 := hmin _ h1
    rw [← hgm _ (by omega), hget]
    exact h2
  · intro j hjlt
    have hjm : j < ((a :: ss).map (fun m => |deg - m|)).length := by omega
    have hne := getD_lt_indexOf_ne ((a :: ss).map (fun m => |deg - m|))
      (pyMinList (|deg - a|) (ss.map (fun m => |deg - m|))) j hjm hjlt
    have hle := hmin (((a :: ss).map (fun m => |deg - m|)).getD j 0) (by
      rw [List.getD_eq_getElem _ _ hjm]
      exact List.getElem_mem hjm)
    have hlt := lt_of_le_of_ne hle (Ne.symm hne)
    rw [hgm j (by omega)] at hlt
    rw [← hgm _ (by omega), hget]
    exact hlt

theorem nearestScaleDegree_mem (scale : List ℤ) (hs : scale ≠ []) (deg : ℤ) :
    nearestScaleDegree scale deg ∈ scale := by
  match scale with
  | [] => exact absurd rfl hs
  | a :: ss =>
    obtain ⟨i, hi, heq, -, -⟩ := nearestScaleDegree_spec deg a ss
    rw [heq, List.getD_eq_getElem _ _ hi]
    exact List.getElem_mem hi

theorem quantizeStep_spec (scale : List ℤ) (hg : goodScale scale) (root cur : ℤ) :
    (quantizeStep scale root cur - root) % 12 ∈ scale
    ∧ (quantizeStep scale root cur - root) / 12 = (cur - root) / 12 := by
  obtain ⟨hne, hb⟩ := hg
  have hmem : (if (cur - root) % 12 ∈ scale then (cur - root) % 12
      else nearestScaleDegree scale ((cur - root) % 12)) ∈ scale := by
    by_cases hm : (cur - root) % 12 ∈ scale
    · rw [if_pos hm]; exact hm
    · rw [if_neg hm]; exact nearestScaleDegree_mem scale hne _
  have hbb := hb _ hmem
  have he : quantizeStep scale root cur - root
      = (if (cur - root) % 12 ∈ scale then (cur - root) % 12
          else nearestScaleDegree scale ((cur - root) % 12)) + (cur - root) / 12 * 12 := by
    unfold quantizeStep
    ring
  constructor
  · rw [he]
    have h2 : ((if (cur - root) % 12 ∈ scale then (cur - root) % 12
        else nearestScaleDegree scale ((cur - root) % 12)) + (cur - root) / 12 * 12) % 12
        = (if (cur - root) % 12 ∈ scale then (cur - root) % 12
            else nearestScaleDegree scale ((cur - root) % 12)) := by omega
    rw [h2]
    exact hmem
  · rw [he]
    omega

/-! ### Table-derived facts -/

theorem lookup_some_prop {α β : Type _} [BEq α] (P : β → Prop) :
    ∀ l : List (α × β), (∀ p ∈ l, P p.2) → ∀ k v, l.lookup k = some v → P v := by
  intro l
  induction l with
  | nil => intro _ k v h; simp [List.lookup] at h
  | cons p t ih =>
    obtain ⟨k', v'⟩ := p
    intro hl k v h
    cases hk : k == k'
    · simp only [List.lookup, hk] at h
      exact ih (fun q hq => hl q (List.mem_cons_of_mem _ hq)) k v h
    · simp only [List.lookup, hk] at h
      obtain rfl : v' = v := Option.some.inj h
      exact hl (k', v') (List.mem_cons_self _ _)

theorem lookupWeight_bound (w : String) : -(4/5) ≤ lookupWeight w ∧ lookupWeight w ≤ 9/10 := by
  unfold lookupWeight
  cases h : emotionWeights.lookup w with
  | none => constructor <;> norm_num
  | some v =>
    have hv := lookup_some_prop (fun q => -(4/5) ≤ q ∧ q ≤ 9/10) emotionWeights
      (by intro p hp; fin_cases hp <;> constructor <;> norm_num) w v h
    simpa using hv

theorem mean_bound (l : List ℚ) (lo hi : ℚ) (hlo : lo ≤ 0) (hhi : 0 ≤ hi)
    (h : ∀ x ∈ l, lo ≤ x ∧ x ≤ hi) :
    lo ≤ l.sum / (l.length : ℚ) ∧ l.sum / (l.length : ℚ) ≤ hi := by
  cases l with
  | nil => simpa using ⟨hlo, hhi⟩
  | cons a t =>
    have hlen : (0 : ℚ) < (((a :: t).length : ℕ) : ℚ) := by
      have : 0 < (a :: t).length := by simp
      exact_mod_cast this
    have hs1 : (a :: t).sum ≤ (a :: t).length • hi :=
      List.sum_le_card_nsmul _ _ (fun x hx => (h x hx).2)
    have hs2 : (a :: t).length • lo ≤ (a :: t).sum :=
      List.card_nsmul_le_sum _ _ (fun x hx => (h x hx).1)
    rw [nsmul_eq_mul] at hs1 hs2
    constructor
    · rw [le_div_iff₀ hlen]
      linarith
    · rw [div_le_iff₀ hlen]
      linarith

theorem lineEmotion_bound (line : String) :
    -(4/5) ≤ lineEmotion line ∧ lineEmotion line ≤ 9/10 := by
  have h := mean_bound ((pyWords (pyLower line)).map lookupWeight) (-(4/5)) (9/10)
    (by norm_num) (by norm_num)
    (by
      intro x hx
      obtain ⟨w, -, hw⟩ := List.mem_map.1 hx
      rw [← hw]
      exact lookupWeight_bound w)
  have he : lineEmotion line
      = ((pyWords (pyLower line)).map lookupWeight).sum
        / ((((pyWords (pyLower line)).map lookupWeight).length : ℕ) : ℚ) := by
    simp only [lineEmotion, List.length_map]
  rw [he]
  exact h

theorem goodScale_of_known (name : String)
    (h : name = "major" ∨ name = "minor" ∨ name = "dorian" ∨ name = "mixolydian"
      ∨ name = "pentatonic_major") :
    goodScale (scaleLookup name) := by
  rcases h with h | h | h | h | h <;> subst h <;> exact ⟨by decide, by decide⟩

theorem emotionMappings_scale_known (mood : String) (mc : String × ℚ × ℚ)
    (h : emotionMappings.lookup mood = some mc) :
    mc.1 = "major" ∨ mc.1 = "minor" ∨ mc.1 = "dorian" ∨ mc.1 = "mixolydian"
      ∨ mc.1 = "pentatonic_major" := by
  refine lookup_some_prop (fun v => v.1 = "major" ∨ v.1 = "minor" ∨ v.1 = "dorian"
    ∨ v.1 = "mixolydian" ∨ v.1 = "pentatonic_major") emotionMappings ?_ mood mc h
  intro p hp
  fin_cases hp <;> simp

theorem determineKeyAndScale_scaleName (arc : List ℚ) (mood : String) (r : ℤ) :
    (determineKeyAndScale arc mood r).2 = "major" ∨ (determineKeyAndScale arc mood r).2 = "minor"
      ∨ (determineKeyAndScale arc mood r).2 = "dorian"
      ∨ (determineKeyAndScale arc mood r).2 = "mixolydian"
      ∨ (determineKeyAndScale arc mood r).2 = "pentatonic_major" := by
  unfold determineKeyAndScale
  cases h : emotionMappings.lookup (pyLower mood) with
  | some mc =>
    simpa [h] using emotionMappings_scale_known (pyLower mood) mc h
  | none =>
    simp only [h]
    split_ifs <;> simp

theorem determineKeyAndScale_goodScale (arc : List ℚ) (mood : String) (r : ℤ) :
    goodScale (scaleLookup (determineKeyAndScale arc mood r).2) :=
  goodScale_of_known _ (determineKeyAndScale_scaleName arc mood r)

/-! ### Structural lemmas about the phrase-generation loops -/

theorem timeAligned_append (l1 l2 : List MelodyNote) :
    ∀ t, timeAligned t (l1 ++ l2)
      ↔ timeAligned t l1 ∧ timeAligned (t + (l1.map (fun n => n.duration)).sum) l2 := by
  induction l1 with
  | nil => intro t; simp [timeAligned]
  | cons n ns ih =>
    intro t
    have e : (n :: ns) ++ l2 = n :: (ns ++ l2) := rfl
    rw [e]
    show (n.timestamp = t ∧ timeAligned (t + n.duration) (ns ++ l2)) ↔ _
    rw [ih (t + n.duration), List.map_cons, List.sum_cons, ← add_assoc]
    show _ ↔ ((n.timestamp = t ∧ timeAligned (t + n.duration) ns) ∧ _)
    tauto

theorem timeAligned_ge (l : List MelodyNote) :
    ∀ t, timeAligned t l → (∀ n ∈ l, 0 ≤ n.duration) → ∀ m ∈ l, t ≤ m.timestamp := by
  induction l with
  | nil => intro t _ _ m hm; exact absurd hm (List.not_mem_nil m)
  | cons n ns ih =>
    intro t hta hd m hm
    rcases List.mem_cons.1 hm with h | h
    · rw [h, hta.1]
    · have h1 := ih (t + n.duration) hta.2 (fun x hx => hd x (List.mem_cons_of_mem _ hx)) m h
      have h2 := hd n (List.mem_cons_self _ _)
      linarith

theorem timeAligned_sorted (l : List MelodyNote) :
    ∀ t, timeAligned t l → (∀ n ∈ l, 0 ≤ n.duration) →
      l.Pairwise (fun a b => a.timestamp ≤ b.timestamp) := by
  induction l with
  | nil => intro t _ _; exact List.Pairwise.nil
  | cons n ns ih =>
    intro t hta hd
    refine List.Pairwise.cons ?_
      (ih (t + n.duration) hta.2 (fun x hx => hd x (List.mem_cons_of_mem _ hx)))
    intro m hm
    have h1 := timeAligned_ge ns (t + n.duration) hta.2
      (fun x hx => hd x (List.mem_cons_of_mem _ hx)) m hm
    have h2 := hd n (List.mem_cons_self _ _)
    rw [hta.1]
    linarith

theorem genSyllables_spec (rng : ℕ → ℤ) (root : ℤ) (scale : List ℤ) (tempo : ℤ)
    (word : String) (wE lE : ℚ) (plen : ℕ) :
    ∀ (l : List (ℕ × Bool)) (pitch : ℤ) (t : ℚ) (ix : ℕ),
      (genSyllables rng root scale tempo word wE lE plen l pitch t ix).2.2.1
        = t + ((genSyllables rng root scale tempo word wE lE plen l pitch t ix).1.map
            (fun n => n.duration)).sum
      ∧ timeAligned t (genSyllables rng root scale tempo word wE lE plen l pitch t ix).1
      ∧ ∀ n ∈ (genSyllables rng root scale tempo word wE lE plen l pitch t ix).1,
          noteShape scale root tempo wE lE n := by
  intro l
  induction l with
  | nil =>
    intro pitch t ix
    refine ⟨by simp [genSyllables], ?_, by simp [genSyllables]⟩
    show timeAligned t []
    trivial
  | cons sb rest ih =>
    obtain ⟨sylIdx, stressed⟩ := sb
    intro pitch t ix
    have hrec := ih
      (pitch + ((if stressed then 2 + pyInt (wE * 2) else -1 + pyInt wE)
        + choiceFrom [-1, 0, 1] (rng ix)))
      (t + (if stressed then 3/4 + lE * (1/4) else 1/2) * (120 / (tempo : ℚ)))
      (ix + 1)
    simp only [genSyllables]
    refine ⟨?_, ⟨rfl, hrec.2.1⟩, ?_⟩
    · rw [List.map_cons, List.sum_cons, hrec.1, add_assoc]
    · intro n hn
      rcases List.mem_cons.1 hn with h | h
      · rw [h]
        exact ⟨⟨_, rfl⟩, ⟨stressed, rfl, rfl⟩⟩
      · exact hrec.2.2 n h

theorem genWords_spec (rng : ℕ → ℤ) (root : ℤ) (scale : List ℤ) (tempo : ℤ) (lE : ℚ) :
    ∀ (wds : List WordData) (pitch : ℤ) (t : ℚ) (ix : ℕ),
      (genWords rng root scale tempo lE wds pitch t ix).2.2.1
        = t + ((genWords rng root scale tempo lE wds pitch t ix).1.map
            (fun n => n.duration)).sum
      ∧ timeAligned t (genWords rng root scale tempo lE wds pitch t ix).1
      ∧ ∀ n ∈ (genWords rng root scale tempo lE wds pitch t ix).1,
          wordNoteShape scale root tempo lE wds n := by
  intro wds
  induction wds with
  | nil =>
    intro pitch t ix
    refine ⟨by simp [genWords], ?_, by simp [genWords]⟩
    show timeAligned t []
    trivial
  | cons wd ws ih =>
    intro pitch t ix
    have hs := genSyllables_spec rng root scale tempo wd.word wd.emotion_weight lE
      wd.stress_pattern.length wd.stress_pattern.enum pitch t ix
    have hrec := ih (genSyllables rng root scale tempo wd.word wd.emotion_weight lE
        wd.stress_pattern.length wd.stress_pattern.enum pitch t ix).2.1
      (genSyllables rng root scale tempo wd.word wd.emotion_weight lE
        wd.stress_pattern.length wd.stress_pattern.enum pitch t ix).2.2.1
      (genSyllables rng root scale tempo wd.word wd.emotion_weight lE
        wd.stress_pattern.length wd.stress_pattern.enum pitch t ix).2.2.2
    simp only [genWords]
    refine ⟨?_, ?_, ?_⟩
    · rw [List.map_append, List.sum_append, hrec.1, hs.1, add_assoc]
    · rw [timeAligned_append]
      refine ⟨hs.2.1, ?_⟩
      rw [← hs.1]
      exact hrec.2.1
    · intro n hn
      rcases List.mem_append.1 hn with h | h
      · obtain ⟨hp, b, hv, hd⟩ := hs.2.2 n h
        exact ⟨hp, wd, List.mem_cons_self _ _, b, hv, hd⟩
      · obtain ⟨hp, wd2, hwd2, b, hv, hd⟩ := hrec.2.2 n h
        exact ⟨hp, wd2, List.mem_cons_of_mem _ hwd2, b, hv, hd⟩

theorem genPhrases_spec (rng : ℕ → ℤ) (root : ℤ) (scale : List ℤ) (tempo : ℤ) :
    ∀ (pairs : List (String × ℚ)) (t : ℚ) (ix : ℕ),
      (∀ pr ∈ pairs, pyStrip pr.1 ≠ "") →
      (genPhrases rng root scale tempo pairs t ix).1.length = pairs.length
      ∧ (genPhrases rng root scale tempo pairs t ix).2.1
          = t + ((genPhrases rng root scale tempo pairs t ix).1.map phraseDurSum).sum
      ∧ (∀ i, i < (genPhrases rng root scale tempo pairs t ix).1.length →
          ((genPhrases rng root scale tempo pairs t ix).1.getD i default).start_time
            = t + (((genPhrases rng root scale tempo pairs t ix).1.take i).map phraseDurSum).sum)
      ∧ ∀ p ∈ (genPhrases rng root scale tempo pairs t ix).1,
          timeAligned p.start_time p.notes
          ∧ ∃ pr ∈ pairs, p.emotion_weight = pr.2 ∧ p.lyric_line = pr.1
              ∧ ∀ n ∈ p.notes, wordNoteShape scale root tempo pr.2 (analyzeLineSyllables pr.1) n := by
  intro pairs
  induction pairs with
  | nil =>
    intro t ix _
    exact ⟨rfl, by simp [genPhrases], by intro i hi; simp [genPhrases] at hi, by simp [genPhrases]⟩
  | cons pr rest ih =>
    obtain ⟨line, ew⟩ := pr
    intro t ix hbl
    have h0 : ¬ pyStrip line = "" := hbl (line, ew) (List.mem_cons_self _ _)
    have hw := genWords_spec rng root scale tempo ew (analyzeLineSyllables line) (root + 12) t ix
    have hrec := ih
      (t + ((genWords rng root scale tempo ew (analyzeLineSyllables line) (root + 12) t ix).1.map
        (fun n => n.duration)).sum)
      (genWords rng root scale tempo ew (analyzeLineSyllables line) (root + 12) t ix).2.2.2
      (fun q hq => hbl q (List.mem_cons_of_mem _ hq))
    have heq : genPhrases rng root scale tempo ((line, ew) :: rest) t ix
        = ({ notes := (genWords rng root scale tempo ew (analyzeLineSyllables line)
                (root + 12) t ix).1,
             start_time := t, emotion_weight := ew, lyric_line := line }
            :: (genPhrases rng root scale tempo rest
                (t + ((genWords rng root scale tempo ew (analyzeLineSyllables line)
                  (root + 12) t ix).1.map (fun n => n.duration)).sum)
                (genWords rng root scale tempo ew (analyzeLineSyllables line)
                  (root + 12) t ix).2.2.2).1,
           (genPhrases rng root scale tempo rest
              (t + ((genWords rng root scale tempo ew (analyzeLineSyllables line)
                (root + 12) t ix).1.map (fun n => n.duration)).sum)
              (genWords rng root scale tempo ew (analyzeLineSyllables line)
                (root + 12) t ix).2.2.2).2) := by
      simp only [genPhrases, if_neg h0]
    have heq1 : (genPhrases rng root scale tempo ((line, ew) :: rest) t ix).1
        = { notes := (genWords rng root scale tempo ew (analyzeLineSyllables line)
              (root + 12) t ix).1,
            start_time := t, emotion_weight := ew, lyric_line := line }
          :: (genPhrases rng root scale tempo rest
              (t + ((genWords rng root scale tempo ew (analyzeLineSyllables line)
                (root + 12) t ix).1.map (fun n => n.duration)).sum)
              (genWords rng root scale tempo ew (analyzeLineSyllables line)
                (root + 12) t ix).2.2.2).1 := by
      rw [heq]
    have heq2 : (genPhrases rng root scale tempo ((line, ew) :: rest) t ix).2.1
        = (genPhrases rng root scale tempo rest
            (t + ((genWords rng root scale tempo ew (analyzeLineSyllables line)
              (root + 12) t ix).1.map (fun n => n.duration)).sum)
            (genWords rng root scale tempo ew (analyzeLineSyllables line)
              (root + 12) t ix).2.2.2).2.1 := by
      rw [heq]
    refine ⟨?_, ?_, ?_, ?_⟩
    · rw [heq1]
      simp [hrec.1]
    · rw [heq2, heq1, List.map_cons, List.sum_cons, hrec.2.1, add_assoc]
      rfl
    · intro i hi
      rw [heq1] at hi ⊢
      cases i with
      | zero => simp
      | succ k =>
        have hk : k < (genPhrases rng root scale tempo rest
            (t + ((genWords rng root scale tempo ew (analyzeLineSyllables line)
              (root + 12) t ix).1.map (fun n => n.duration)).sum)
            (genWords rng root scale tempo ew (analyzeLineSyllables line)
              (root + 12) t ix).2.2.2).1.length := by
          simpa using hi
        have hs := hrec.2.2.1 k hk
        rw [List.getD_cons_succ, List.take_succ_cons, List.map_cons, List.sum_cons, hs, add_assoc]
        rfl
    · intro p hp
      rw [heq1] at hp
      rcases List.mem_cons.1 hp with h | h
      · rw [h]
        refine ⟨hw.2.1, (line, ew), List.mem_cons_self _ _, rfl, rfl, ?_⟩
        intro n hn
        exact hw.2.2 n hn
      · obtain ⟨hta, pr2, hpr2, hrest⟩ := (hrec.2.2.2 p h)
        exact ⟨hta, pr2, List.mem_cons_of_mem _ hpr2, hrest⟩

/-! ### Bridging lemmas at the pipeline level -/

theorem nonBlankLines_strip_ne (lyrics l : String) (h : l ∈ nonBlankLines lyrics) :
    pyStrip l ≠ "" := by
  unfold nonBlankLines at h
  obtain ⟨hm, hp⟩ := List.mem_filter.1 h
  have hne : l ≠ "" := by simpa using hp
  obtain ⟨raw, -, hr⟩ := List.mem_map.1 hm
  rw [← hr]
  rw [← hr] at hne
  exact pyStrip_of_pyStrip_ne raw hne

theorem zip_arc_eq (lyrics : String) :
    (nonBlankLines lyrics).zip ((nonBlankLines lyrics).map lineEmotion)
      = (nonBlankLines lyrics).map (fun l => (l, lineEmotion l)) := by
  have hz := List.zip_map' id lineEmotion (nonBlankLines lyrics)
  rw [List.map_id] at hz
  rw [hz]
  rfl

theorem clampVel_bounds (x : ℤ) : 40 ≤ max 40 (min 127 x) ∧ max 40 (min 127 x) ≤ 127 :=
  ⟨le_max_left _ _, max_le (by norm_num) (min_le_left _ _)⟩

theorem durFormula_pos (b : Bool) (lE : ℚ) (tempo : ℤ) (h1 : -(4/5) ≤ lE) (h2 : 0 < tempo) :
    0 < (if b then 3/4 + lE * (1/4) else 1/2) * (120 / (tempo : ℚ)) := by
  have ht : (0 : ℚ) < (tempo : ℚ) := by exact_mod_cast h2
  have h3 : (0 : ℚ) < 120 / (tempo : ℚ) := by positivity
  have h4 : (0 : ℚ) < (if b then 3/4 + lE * (1/4) else 1/2) := by
    cases b
    · rw [if_neg (by simp)]
      norm_num
    · rw [if_pos rfl]
      linarith
  exact mul_pos h4 h3

theorem defaultStress_length (sc : ℕ) : (defaultStress sc).length = sc := by
  unfold defaultStress
  split_ifs with h1 h2
  · simp [h1]
  · simp [h2]
  · simp

theorem analyzeLineSyllables_elem (line : String) (wd : WordData)
    (h : wd ∈ analyzeLineSyllables line) :
    wd.emotion_weight = lookupWeight wd.word
    ∧ wd.stress_pattern.length = wd.syllable_count := by
  obtain ⟨w, -, hw⟩ := List.mem_map.1 h
  rw [← hw]
  exact ⟨rfl, defaultStress_length _⟩

theorem melodyParts_spec (rng : ℕ → ℤ) (lyrics mood : String) (tempo : ℤ) :
    goodScale (scaleLookup (melodyParts rng lyrics mood tempo).scaleName)
    ∧ (melodyParts rng lyrics mood tempo).phrases.length = (nonBlankLines lyrics).length
    ∧ (melodyParts rng lyrics mood tempo).totalDuration
        = ((melodyParts rng lyrics mood tempo).phrases.map phraseDurSum).sum
    ∧ (∀ i, i < (melodyParts rng lyrics mood tempo).phrases.length →
        (((melodyParts rng lyrics mood tempo).phrases).getD i default).start_time
          = ((((melodyParts rng lyrics mood tempo).phrases).take i).map phraseDurSum).sum)
    ∧ ∀ p ∈ (melodyParts rng lyrics mood tempo).phrases,
        timeAligned p.start_time p.notes
        ∧ (-(4/5) ≤ p.emotion_weight ∧ p.emotion_weight ≤ 9/10)
        ∧ ∀ n ∈ p.notes,
            wordNoteShape (scaleLookup (melodyParts rng lyrics mood tempo).scaleName)
              (melodyParts rng lyrics mood tempo).root tempo p.emotion_weight
              (analyzeLineSyllables p.lyric_line) n := by
  have hbl : ∀ pr ∈ (nonBlankLines lyrics).zip ((nonBlankLines lyrics).map lineEmotion),
      pyStrip pr.1 ≠ "" := by
    intro pr hpr
    rw [zip_arc_eq] at hpr
    obtain ⟨l, hl, hpr2⟩ := List.mem_map.1 hpr
    rw [← hpr2]
    exact nonBlankLines_strip_ne lyrics l hl
  have hpr2 : ∀ pr ∈ (nonBlankLines lyrics).zip ((nonBlankLines lyrics).map lineEmotion),
      pr.2 = lineEmotion pr.1 := by
    intro pr hpr
    rw [zip_arc_eq] at hpr
    obtain ⟨l, -, hpr2⟩ := List.mem_map.1 hpr
    rw [← hpr2]
  have hp := genPhrases_spec rng
    (determineKeyAndScale ((nonBlankLines lyrics).map lineEmotion) mood (rng 0)).1
    (scaleLookup (determineKeyAndScale ((nonBlankLines lyrics).map lineEmotion) mood (rng 0)).2)
    tempo ((nonBlankLines lyrics).zip ((nonBlankLines lyrics).map lineEmotion)) 0 1 hbl
  have e1 : (melodyParts rng lyrics mood tempo).phrases
      = (genPhrases rng
        (determineKeyAndScale ((nonBlankLines lyrics).map lineEmotion) mood (rng 0)).1
        (scaleLookup (determineKeyAndScale ((nonBlankLines lyrics).map lineEmotion) mood (rng 0)).2)
        tempo ((nonBlankLines lyrics).zip ((nonBlankLines lyrics).map lineEmotion)) 0 1).1 := rfl
  have e2 : (melodyParts rng lyrics mood tempo).totalDuration
      = (genPhrases rng
        (determineKeyAndScale ((nonBlankLines lyrics).map lineEmotion) mood (rng 0)).1
        (scaleLookup (determineKeyAndScale ((nonBlankLines lyrics).map lineEmotion) mood (rng 0)).2)
        tempo ((nonBlankLines lyrics).zip ((nonBlankLines lyrics).map lineEmotion)) 0 1).2.1 := rfl
  have e3 : (melodyParts rng lyrics mood tempo).scaleName
      = (determineKeyAndScale ((nonBlankLines lyrics).map lineEmotion) mood (rng 0)).2 := rfl
  have e4 : (melodyParts rng lyrics mood tempo).root
      = (determineKeyAndScale ((nonBlankLines lyrics).map lineEmotion) mood (rng 0)).1 := rfl
  have hgood : goodScale (scaleLookup (melodyParts rng lyrics mood tempo).scaleName) := by
    rw [e3]
    exact determineKeyAndScale_goodScale _ mood (rng 0)
  have hzl : ((nonBlankLines lyrics).zip ((nonBlankLines lyrics).map lineEmotion)).length
      = (nonBlankLines lyrics).length := by
    rw [List.length_zip, List.length_map, Nat.min_self]
  refine ⟨hgood, ?_, ?_, ?_, ?_⟩
  · rw [e1, hp.1, hzl]
  · rw [e1, e2, hp.2.1, zero_add]
  · intro i hi
    rw [e1] at hi ⊢
    rw [hp.2.2.1 i hi, zero_add]
  · intro p hpm
    rw [e1] at hpm
    obtain ⟨hta, pr, hprm, hew, hline, hshape⟩ := hp.2.2.2 p hpm
    have hew2 : p.emotion_weight = lineEmotion pr.1 := by rw [hew, hpr2 pr hprm]
    refine ⟨hta, ?_, ?_⟩
    · rw [hew2]
      exact lineEmotion_bound pr.1
    · intro n hn
      rw [e3, e4]
      have := hshape n hn
      rw [← hline, ← hew] at this
      exact this

/-! ### Phoneme timing, contour and dynamics lemmas -/

theorem phonemeEventsAux_spec (pd : ℚ) (pitch vel : ℤ) :
    ∀ (cs : List Char) (t : ℚ),
      (phonemeEventsAux pd pitch vel cs t).length = cs.length
      ∧ phTimeAligned t (phonemeEventsAux pd pitch vel cs t)
      ∧ ∀ e ∈ phonemeEventsAux pd pitch vel cs t,
          e.duration = pd ∧ e.pitch = pitch ∧ e.velocity = vel := by
  intro cs
  induction cs with
  | nil =>
    intro t
    refine ⟨rfl, ?_, by simp [phonemeEventsAux]⟩
    show phTimeAligned t []
    trivial
  | cons c cs ih =>
    intro t
    refine ⟨by simp [phonemeEventsAux, (ih (t + pd)).1], ⟨rfl, (ih (t + pd)).2.1⟩, ?_⟩
    intro e he
    simp only [phonemeEventsAux] at he
    rcases List.mem_cons.1 he with h | h
    · rw [h]
      exact ⟨rfl, rfl, rfl⟩
    · exact (ih (t + pd)).2.2 e h

theorem notePhonemeEvents_spec (n : MelodyNote) (hne : phonemeChars n ≠ []) :
    (notePhonemeEvents n).length = (phonemeChars n).length
    ∧ 1 ≤ (notePhonemeEvents n).length
    ∧ ((notePhonemeEvents n).map (fun e => e.duration)).sum = n.duration
    ∧ phTimeAligned n.timestamp (notePhonemeEvents n)
    ∧ ∀ e ∈ notePhonemeEvents n,
        e.duration = n.duration / (((phonemeChars n).length : ℕ) : ℚ)
        ∧ e.pitch = n.pitch ∧ e.velocity = n.velocity := by
  have hsp := phonemeEventsAux_spec (n.duration / (((phonemeChars n).length : ℕ) : ℚ))
    n.pitch n.velocity (phonemeChars n) n.timestamp
  have hlen : (notePhonemeEvents n).length = (phonemeChars n).length := hsp.1
  have hpos : 0 < (phonemeChars n).length := List.length_pos.2 hne
  refine ⟨hlen, by omega, ?_, hsp.2.1, hsp.2.2⟩
  have hconst : (notePhonemeEvents n).map (fun e => e.duration)
      = (notePhonemeEvents n).map
        (fun _ => n.duration / (((phonemeChars n).length : ℕ) : ℚ)) := by
    apply List.map_congr_left
    intro e he
    exact (hsp.2.2 e he).1
  have hsum : ∀ (l : List PhonemeEvent) (c : ℚ), (l.map (fun _ => c)).sum = (l.length : ℚ) * c := by
    intro l c
    induction l with
    | nil => simp
    | cons a t ih =>
      rw [List.map_cons, List.sum_cons, ih, List.length_cons]
      push_cast
      ring
  rw [hconst, hsum, hlen]
  have hnz : (((phonemeChars n).length : ℕ) : ℚ) ≠ 0 := by
    exact_mod_cast Nat.pos_iff_ne_zero.1 hpos
  field_simp

theorem generatePhonemeTiming_eq (m : GeneratedMelody)
    (h : ∀ n ∈ (m.phrases.map (fun p => p.notes)).flatten, phonemeChars n ≠ []) :
    generatePhonemeTiming m
      = some ((((m.phrases.map (fun p => p.notes)).flatten).map notePhonemeEvents).flatten) := by
  unfold generatePhonemeTiming
  rw [if_pos]
  apply List.all_eq_true.2
  intro n hn
  have := h n hn
  simp only [Bool.not_eq_true']
  rw [← Bool.not_eq_true]
  intro hc
  exact this (List.isEmpty_iff.1 hc)

theorem contourAux_length (freq : ℤ → ℚ) (nrng : ℕ → ℚ) :
    ∀ (ns : List MelodyNote) (ix : ℕ),
      (contourAux freq nrng ns ix).1.length
        = (ns.map (fun n => numPointsOf n.duration)).sum := by
  intro ns
  induction ns with
  | nil => intro ix; rfl
  | cons n t ih =>
    intro ix
    simp only [contourAux]
    rw [List.length_append, List.length_map, List.length_range,
      ih (ix + numPointsOf n.duration)]
    simp

theorem generateDynamics_length (m : GeneratedMelody) :
    (generateDynamics m).length
      = (((m.phrases.map (fun p => p.notes)).flatten).map
          (fun n => numPointsOf n.duration)).sum := by
  unfold generateDynamics
  rw [List.length_flatten, List.map_map]
  congr 1
  apply List.map_congr_left
  intro n hn
  simp [noteDynamics]

theorem pyInt_eq_floor (q : ℚ) (h : 0 ≤ q) : pyInt q = ⌊q⌋ := by
  rw [Rat.floor_def, pyInt,
    Int.tdiv_eq_ediv (by exact_mod_cast Rat.num_nonneg.2 h) (by positivity)]

/-! ### Claim theorems -/

/-- Claim C1: every generated note's pitch-class offset relative to the
chosen root, taken modulo 12, is a member of the selected scale's pitch-class
set; the octave of the quantized offset is the floor-division of the
pre-quantization offset by 12; when the offset's pitch class is not a scale
member, the replacement is the scale member at minimum absolute (non-circular)
distance with ties broken toward the earliest member of the scale list, which
is strictly ascending. -/
theorem C1_scale_membership_and_quantization :
    (∀ (rng : ℕ → ℤ) (lyrics mood : String) (tempo : ℤ),
      ∀ p ∈ (melodyParts rng lyrics mood tempo).phrases, ∀ n ∈ p.notes,
        (n.pitch - (melodyParts rng lyrics mood tempo).root) % 12
          ∈ scaleLookup (melodyParts rng lyrics mood tempo).scaleName)
    ∧ (∀ (scale : List ℤ) (root cur : ℤ), goodScale scale →
        (quantizeStep scale root cur - root) / 12 = (cur - root) / 12)
    ∧ (∀ (deg a : ℤ) (ss : List ℤ), deg ∉ a :: ss →
        ∃ i, i < (a :: ss).length
          ∧ nearestScaleDegree (a :: ss) deg = (a :: ss).getD i 0
          ∧ (∀ m ∈ a :: ss, |deg - (a :: ss).getD i 0| ≤ |deg - m|)
          ∧ ∀ j, j < i → |deg - (a :: ss).getD i 0| < |deg - (a :: ss).getD j 0|)
    ∧ ∀ pr ∈ scalesTable, List.Pairwise (fun x y => x < y) pr.2 := by
  refine ⟨?_, ?_, ?_, by decide⟩
  · intro rng lyrics mood tempo p hp n hn
    obtain ⟨-, -, hsh⟩ := (melodyParts_spec rng lyrics mood tempo).2.2.2.2 p hp
    obtain ⟨⟨cur, hcur⟩, -⟩ := hsh n hn
    rw [hcur]
    exact (quantizeStep_spec _ (melodyParts_spec rng lyrics mood tempo).1 _ cur).1
  · intro scale root cur hg
    exact (quantizeStep_spec scale hg root cur).2
  · intro deg a ss _
    exact nearestScaleDegree_spec deg a ss

/-- Witness for C1: the lyric text "a" with a constant random stream. -/
theorem C1_witness :
    ((((melodyParts (fun _ => 0) "a" "" 120).phrases.headD default).notes.headD
        default).pitch - (melodyParts (fun _ => 0) "a" "" 120).root) % 12
      ∈ scaleLookup (melodyParts (fun _ => 0) "a" "" 120).scaleName := by
  have h1 : (melodyParts (fun _ => 0) "a" "" 120).phrases ≠ [] := by decide
  have h2 : ((melodyParts (fun _ => 0) "a" "" 120).phrases.headD default).notes ≠ [] := by
    decide
  exact C1_scale_membership_and_quantization.1 (fun _ => 0) "a" "" 120
    _ (headD_mem _ _ h1) _ (headD_mem _ _ h2)

/-- Claim C2 (evaluation of the code): for every note whose stripped syllable
is non-empty, phoneme-timing derivation emits one event per remaining
character, the equal shares sum exactly to the note's duration, each event
carries the note's pitch and velocity, and start times advance sequentially
from the note's timestamp; but on the melody generated end-to-end from the
lyric text "[x" — whose single note has syllable "[x", stripped to the empty
string — the derivation has no value: the code divides the duration by the
zero phoneme count instead of defaulting to a single full-length event. -/
theorem C2_phoneme_timing :
    (∀ n : MelodyNote, phonemeChars n ≠ [] →
      (notePhonemeEvents n).length = (phonemeChars n).length
      ∧ 1 ≤ (notePhonemeEvents n).length
      ∧ ((notePhonemeEvents n).map (fun e => e.duration)).sum = n.duration
      ∧ phTimeAligned n.timestamp (notePhonemeEvents n)
      ∧ ∀ e ∈ notePhonemeEvents n,
          e.duration = n.duration / (((phonemeChars n).length : ℕ) : ℚ)
          ∧ e.pitch = n.pitch ∧ e.velocity = n.velocity)
    ∧ (∀ m : GeneratedMelody,
        (∀ n ∈ (m.phrases.map (fun p => p.notes)).flatten, phonemeChars n ≠ []) →
        generatePhonemeTiming m
          = some ((((m.phrases.map (fun p => p.notes)).flatten).map notePhonemeEvents).flatten))
    ∧ generatePhonemeTiming
        (generateMelodyFromLyrics (fun _ => 0) "[x" "pop" "x" 120) = none := by
  refine ⟨?_, generatePhonemeTiming_eq, by decide⟩
  intro n hne
  exact notePhonemeEvents_spec n hne

/-- Witness for C2: a note carrying the syllable "la". -/
theorem C2_witness :
    ((notePhonemeEvents laNote).map (fun e => e.duration)).sum = 3/4 :=
  (C2_phoneme_timing.1 laNote (by decide)).2.2.1

/-- Claim C3 (evaluation of the code): on the empty lyric string the melody
stage yields zero phrases, a zero note count and zero total duration, but the
vocal stage that runs after melody assembly has no value: the pitch-contour
and dynamics lists are empty, and `_synthesize_vocal_track` takes `min` and
`max` of empty sequences. -/
theorem C3_empty_lyrics (rng : ℕ → ℤ) (freq : ℤ → ℚ) (nrng : ℕ → ℚ)
    (genre mood : String) (tempo : ℤ) (vs : Option VocalSettings) (uvs : Bool) :
    (generateMelodyFromLyrics rng "" genre mood tempo).phrases = []
    ∧ (generateMelodyFromLyrics rng "" genre mood tempo).note_count = 0
    ∧ (generateMelodyFromLyrics rng "" genre mood tempo).total_duration = 0
    ∧ generateVocalsWithMelody freq nrng (generateMelodyFromLyrics rng "" genre mood tempo)
        vs uvs = none :=
  ⟨rfl, rfl, rfl, rfl⟩

/-- Counterexample to C4 as stated: analyzing "beautiful" — a key of the
stress-pattern override table — yields a syllable count of 5 (the vowel
count) but a stress pattern of length 3 (the table entry). -/
theorem C4_counterexample :
    analyzeSyllables "beautiful" ≠ []
    ∧ (analyzeSyllables "beautiful").headD default ∈ analyzeSyllables "beautiful"
    ∧ ((analyzeSyllables "beautiful").headD default).syllable_count = 5
    ∧ ((analyzeSyllables "beautiful").headD default).stress_pattern.length = 3 :=
  ⟨by decide, headD_mem _ _ (by decide), by decide, by decide⟩

/-- Claim C4 as amended: for every analyzed word whose text is not a key of
the override table, the stress-pattern length equals the syllable count
(vowel count floored at 1); for a word in the table the stress pattern is the
table entry, whose length may differ from the vowel count.  In the variant
without the table the equality holds unconditionally. -/
theorem C4_amended :
    (∀ text : String, ∀ wd ∈ analyzeSyllables text,
      (stressPatterns.lookup wd.word = none → wd.stress_pattern.length = wd.syllable_count)
      ∧ ∀ pat, stressPatterns.lookup wd.word = some pat → wd.stress_pattern = pat)
    ∧ ∀ line : String, ∀ wd ∈ analyzeLineSyllables line,
        wd.stress_pattern.length = wd.syllable_count := by
  constructor
  · intro text wd h
    obtain ⟨w, -, hw⟩ := List.mem_map.1 h
    subst hw
    constructor
    · intro hn
      have hn2 : stressPatterns.lookup w = none := hn
      show (match stressPatterns.lookup w with
        | some p => p
        | none => defaultStress (max 1 (vowelCount w))).length = max 1 (vowelCount w)
      rw [hn2]
      exact defaultStress_length _
    · intro pat hp
      have hp2 : stressPatterns.lookup w = some pat := hp
      show (match stressPatterns.lookup w with
        | some p => p
        | none => defaultStress (max 1 (vowelCount w))) = pat
      rw [hp2]
  · intro line wd h
    exact (analyzeLineSyllables_elem line wd h).2

/-- Witness for C4 (amended): the word "day", absent from the table. -/
theorem C4_witness :
    ((analyzeSyllables "day").headD default).stress_pattern.length
      = ((analyzeSyllables "day").headD default).syllable_count :=
  (C4_amended.1 "day" ((analyzeSyllables "day").headD default)
    (headD_mem _ _ (by decide))).1 (by decide)

/-- Claim C5: the melody contains exactly one phrase per non-blank line, in
line order; each phrase's start time equals the cumulative duration of the
phrases before it; the total duration is the sum over phrases of their note
duration sums (each phrase's span); and within each phrase the timestamps
advance by each note's own duration, hence are non-decreasing. -/
theorem C5_phrase_structure (rng : ℕ → ℤ) (lyrics genre mood : String) (tempo : ℤ)
    (htempo : 0 < tempo) :
    (generateMelodyFromLyrics rng lyrics genre mood tempo).phrases.length
        = (nonBlankLines lyrics).length
    ∧ (∀ i, i < (generateMelodyFromLyrics rng lyrics genre mood tempo).phrases.length →
        (((generateMelodyFromLyrics rng lyrics genre mood tempo).phrases).getD i
            default).start_time
          = ((((generateMelodyFromLyrics rng lyrics genre mood tempo).phrases).take i).map
              phraseDurSum).sum)
    ∧ (generateMelodyFromLyrics rng lyrics genre mood tempo).total_duration
        = (((generateMelodyFromLyrics rng lyrics genre mood tempo).phrases).map
            phraseDurSum).sum
    ∧ ∀ p ∈ (generateMelodyFromLyrics rng lyrics genre mood tempo).phrases,
        timeAligned p.start_time p.notes
        ∧ (p.notes.map (fun n => n.timestamp)).Pairwise (fun a b => a ≤ b) := by
  have e1 : (generateMelodyFromLyrics rng lyrics genre mood tempo).phrases
      = (melodyParts rng lyrics mood tempo).phrases := rfl
  have e2 : (generateMelodyFromLyrics rng lyrics genre mood tempo).total_duration
      = (melodyParts rng lyrics mood tempo).totalDuration := rfl
  have hms := melodyParts_spec rng lyrics mood tempo
  refine ⟨by rw [e1]; exact hms.2.1, ?_, by rw [e2, e1]; exact hms.2.2.1, ?_⟩
  · intro i hi
    rw [e1] at hi ⊢
    exact hms.2.2.2.1 i hi
  · intro p hp
    rw [e1] at hp
    obtain ⟨hta, hbound, hshape⟩ := hms.2.2.2.2 p hp
    have hdur : ∀ n ∈ p.notes, 0 ≤ n.duration := by
      intro n hn
      obtain ⟨-, wd, -, b, -, hd⟩ := hshape n hn
      rw [hd]
      exact le_of_lt (durFormula_pos b p.emotion_weight tempo hbound.1 htempo)
    refine ⟨hta, ?_⟩
    rw [List.pairwise_map]
    exact timeAligned_sorted p.notes p.start_time hta hdur

/-- Witness for C5: the lyric text "a" at tempo 120. -/
theorem C5_witness :
    (generateMelodyFromLyrics (fun _ => 0) "a" "pop" "" 120).phrases.length
      = (nonBlankLines "a").length :=
  (C5_phrase_structure (fun _ => 0) "a" "pop" "" 120 (by norm_num)).1

/-- Claim C6: with a positive tempo, every generated note's velocity is the
clamp to [40, 127] of a 90 (stressed) or 70 (unstressed) base plus the
truncated product of the word's sentiment-table emotion magnitude and 20 —
so it lies in [40, 127] — and every note's duration is strictly positive. -/
theorem C6_velocity_duration (rng : ℕ → ℤ) (lyrics genre mood : String) (tempo : ℤ)
    (htempo : 0 < tempo) :
    ∀ p ∈ (generateMelodyFromLyrics rng lyrics genre mood tempo).phrases, ∀ n ∈ p.notes,
      40 ≤ n.velocity ∧ n.velocity ≤ 127 ∧ 0 < n.duration
      ∧ ∃ (b : Bool) (w : String),
          n.velocity = max 40 (min 127 ((if b then 90 else 70)
            + pyInt (|lookupWeight w| * 20))) := by
  intro p hp n hn
  have e1 : (generateMelodyFromLyrics rng lyrics genre mood tempo).phrases
      = (melodyParts rng lyrics mood tempo).phrases := rfl
  rw [e1] at hp
  obtain ⟨-, hbound, hshape⟩ := (melodyParts_spec rng lyrics mood tempo).2.2.2.2 p hp
  obtain ⟨-, wd, hwd, b, hv, hd⟩ := hshape n hn
  have hwW := (analyzeLineSyllables_elem _ wd hwd).1
  refine ⟨?_, ?_, ?_, b, wd.word, ?_⟩
  · rw [hv]
    exact (clampVel_bounds _).1
  · rw [hv]
    exact (clampVel_bounds _).2
  · rw [hd]
    exact durFormula_pos b p.emotion_weight tempo hbound.1 htempo
  · rw [hv, hwW]

/-- Witness for C6: the lyric text "a" at tempo 120. -/
theorem C6_witness :
    40 ≤ (((generateMelodyFromLyrics (fun _ => 0) "a" "pop" "" 120).phrases.headD
      default).notes.headD default).velocity := by
  have h1 : (generateMelodyFromLyrics (fun _ => 0) "a" "pop" "" 120).phrases ≠ [] := by
    decide
  have h2 : ((generateMelodyFromLyrics (fun _ => 0) "a" "pop" "" 120).phrases.headD
      default).notes ≠ [] := by decide
  exact (C6_velocity_duration (fun _ => 0) "a" "pop" "" 120 (by norm_num)
    _ (headD_mem _ _ h1) _ (headD_mem _ _ h2)).1

/-- Claim C7: scale selection consults the fixed mood table first — when the
lowercased mood is a table key, the table's scale is selected regardless of
the emotion arc; only otherwise does the average line emotion (zero for an
empty arc) decide: major above 3/10, minor below -(3/10), dorian between. -/
theorem C7_scale_selection :
    (∀ (arc : List ℚ) (mood : String) (r : ℤ) (mc : String × ℚ × ℚ),
      emotionMappings.lookup (pyLower mood) = some mc →
      (determineKeyAndScale arc mood r).2 = mc.1)
    ∧ (∀ (arc : List ℚ) (mood : String) (r : ℤ),
        emotionMappings.lookup (pyLower mood) = none →
        (avgEmotion arc > 3/10 → (determineKeyAndScale arc mood r).2 = "major")
        ∧ (avgEmotion arc < -(3/10) → (determineKeyAndScale arc mood r).2 = "minor")
        ∧ (¬ avgEmotion arc > 3/10 → ¬ avgEmotion arc < -(3/10) →
            (determineKeyAndScale arc mood r).2 = "dorian"))
    ∧ ∀ arc : List ℚ, arc = [] → avgEmotion arc = 0 := by
  refine ⟨?_, ?_, ?_⟩
  · intro arc mood r mc h
    simp [determineKeyAndScale, h]
  · intro arc mood r h
    refine ⟨?_, ?_, ?_⟩
    · intro hgt
      simp [determineKeyAndScale, h, hgt]
    · intro hlt
      have hngt : ¬ avgEmotion arc > 3/10 := by
        intro hc
        rw [gt_iff_lt] at hc
        linarith
      simp [determineKeyAndScale, h, hngt, hlt]
    · intro h1 h2
      simp [determineKeyAndScale, h, h1, h2]
  · intro arc h
    simp [avgEmotion, h]

/-- Witness for C7: the mood "HAPPY" (lowercased to a table key). -/
theorem C7_witness : (determineKeyAndScale [1] "HAPPY" 0).2 = "major" :=
  C7_scale_selection.1 [1] "HAPPY" 0 ("major", 11/10, 8/10) rfl

/-- Claim C8: the audio-feature profile is the genre override applied after
the mood override applied to the fixed baseline; an unknown mood or genre
leaves the previous stage's profile unchanged; a known mood replaces energy
by the table value and sets the two-level valence; a known genre overwrites
its listed fields unconditionally, so on its overlapping fields (energy,
danceability, acousticness) the result does not depend on the incoming
profile — genre beats mood. -/
theorem C8_audio_features :
    (∀ (genre mood : String) (tempo root : ℤ),
      generateAudioFeatures genre mood tempo root
        = applyGenre genre (applyMood mood (baselineFeatures tempo root)))
    ∧ (∀ (mood : String) (f : AudioFeatures),
        emotionMappings.lookup (pyLower mood) = none → applyMood mood f = f)
    ∧ (∀ (mood : String) (f : AudioFeatures) (mc : String × ℚ × ℚ),
        emotionMappings.lookup (pyLower mood) = some mc →
        applyMood mood f
          = { f with energy := mc.2.2, valence := if mc.2.2 > 6/10 then 8/10 else 3/10 })
    ∧ (∀ (genre : String) (f : AudioFeatures),
        genreAdjustments.lookup (pyLower genre) = none → applyGenre genre f = f)
    ∧ ∀ (genre : String) (adj : List (FeatField × ℚ)),
        genreAdjustments.lookup (pyLower genre) = some adj →
        ∀ f g : AudioFeatures,
          (applyGenre genre f).energy = (applyGenre genre g).energy
          ∧ (applyGenre genre f).danceability = (applyGenre genre g).danceability
          ∧ (applyGenre genre f).acousticness = (applyGenre genre g).acousticness := by
  refine ⟨fun _ _ _ _ => rfl, ?_, ?_, ?_, ?_⟩
  · intro mood f h
    simp [applyMood, h]
  · intro mood f mc h
    simp [applyMood, h]
  · intro genre f h
    simp [applyGenre, h]
  · intro genre adj hl f g
    have hadj := lookup_some_prop
      (fun a => a = [(FeatField.danceability, 8/10), (FeatField.energy, 7/10),
          (FeatField.acousticness, 2/10)]
        ∨ a = [(FeatField.energy, 9/10), (FeatField.acousticness, 1/10),
          (FeatField.danceability, 6/10)]
        ∨ a = [(FeatField.danceability, 9/10), (FeatField.energy, 8/10),
          (FeatField.acousticness, 5/100)]
        ∨ a = [(FeatField.acousticness, 8/10), (FeatField.energy, 4/10),
          (FeatField.danceability, 3/10)])
      genreAdjustments ?_ (pyLower genre) adj hl
    · rcases hadj with h1 | h1 | h1 | h1 <;> rw [h1] at hl <;>
        simp [applyGenre, hl, setFeat]
    · intro p hp
      fin_cases hp
      · exact Or.inl rfl
      · exact Or.inr (Or.inl rfl)
      · exact Or.inr (Or.inr (Or.inl rfl))
      · exact Or.inr (Or.inr (Or.inr rfl))

/-- Witness for C8: the genre "rock" against two different mood stages. -/
theorem C8_witness :
    (applyGenre "rock" (applyMood "sad" (baselineFeatures 120 60))).energy
      = (applyGenre "rock" (applyMood "happy" (baselineFeatures 120 60))).energy :=
  (C8_audio_features.2.2.2.2 "rock"
    [(FeatField.energy, 9/10), (FeatField.acousticness, 1/10), (FeatField.danceability, 6/10)]
    rfl _ _).1

/-- Claim C9: with the random streams held fixed, the pipeline is a pure
function of its inputs — two invocations with identical lyric text, genre,
mood, tempo, voice settings and pointwise-identical random streams produce
identical melody and vocal outputs; the streams are the only source of
variation in the embedding. -/
theorem C9_determinism (rng1 rng2 : ℕ → ℤ) (freq : ℤ → ℚ) (nrng1 nrng2 : ℕ → ℚ)
    (lyrics genre mood : String) (tempo : ℤ) (vs : Option VocalSettings) (uvs : Bool)
    (hr : ∀ i, rng1 i = rng2 i) (hn : ∀ i, nrng1 i = nrng2 i) :
    generateMelodyFromLyrics rng1 lyrics genre mood tempo
      = generateMelodyFromLyrics rng2 lyrics genre mood tempo
    ∧ generateVocalsWithMelody freq nrng1
        (generateMelodyFromLyrics rng1 lyrics genre mood tempo) vs uvs
      = generateVocalsWithMelody freq nrng2
        (generateMelodyFromLyrics rng2 lyrics genre mood tempo) vs uvs := by
  have h1 : rng1 = rng2 := funext hr
  have h2 : nrng1 = nrng2 := funext hn
  subst h1
  subst h2
  exact ⟨rfl, rfl⟩

/-- Witness for C9: two constant streams compared pointwise. -/
theorem C9_witness :
    generateMelodyFromLyrics (fun _ => 0) "a" "pop" "happy" 120
      = generateMelodyFromLyrics (fun _ => 0) "a" "pop" "happy" 120 :=
  (C9_determinism (fun _ => 0) (fun _ => 0) (fun _ => 440) (fun _ => 0) (fun _ => 0)
    "a" "pop" "happy" 120 none false (fun _ => rfl) (fun _ => rfl)).1

/-- Claim C10: the pitch-contour and dynamics sample lists always have the
same length, each note contributing exactly `max 1 (int(duration * 10))`
samples to each stream; for the nonnegative durations of a well-formed
melody the truncation in the code agrees with the floor of the claim. -/
theorem C10_sample_alignment :
    (∀ (freq : ℤ → ℚ) (nrng : ℕ → ℚ) (m : GeneratedMelody),
      (extractPitchContour freq nrng m).length = (generateDynamics m).length
      ∧ (extractPitchContour freq nrng m).length
          = (((m.phrases.map (fun p => p.notes)).flatten).map
              (fun n => numPointsOf n.duration)).sum)
    ∧ ∀ d : ℚ, 0 ≤ d → (numPointsOf d : ℤ) = max 1 ⌊d * 10⌋ := by
  refine ⟨?_, ?_⟩
  · intro freq nrng m
    have hc : (extractPitchContour freq nrng m).length
        = (((m.phrases.map (fun p => p.notes)).flatten).map
            (fun n => numPointsOf n.duration)).sum := contourAux_length freq nrng _ 0
    exact ⟨by rw [hc, generateDynamics_length], hc⟩
  · intro d hd
    unfold numPointsOf
    rw [pyInt_eq_floor (d * 10) (mul_nonneg hd (by norm_num))]
    exact Int.toNat_of_nonneg (le_trans zero_le_one (le_max_left _ _))

/-- Witness for C10: a note of duration 1 contributes `max 1 ⌊10⌋` samples. -/
theorem C10_witness : (numPointsOf 1 : ℤ) = max 1 ⌊(1 : ℚ) * 10⌋ :=
  C10_sample_alignment.2 1 (by norm_num)
